import Mathlib

/-!
# Verification of the shush sensu client (`src/sensu/src/client.rs`)

A shallow embedding of the resource-resolution and batched-dispatch engine of
the shush command-line client.  Pure logic from `client.rs` is translated into
executable Lean functions; each HTTP exchange is represented by the response
the environment would return to that call site, so every function of the code
becomes a function of its inputs and of the responses it observes.  Auxiliary
types living in repository modules that are not part of the core source
(`err.rs`, `resource.rs`, `resources.rs`, `endpoint.rs`, `expire.rs`,
`payload.rs`) are modelled from the specification and from their use sites in
`client.rs`.
-/

set_option autoImplicit false

namespace Shush

/-- A JSON value, mirroring `serde_json::Value` as used by `client.rs`.
Objects are insertion-ordered key/value lists with unique keys, arrays are
lists; numbers only ever flow through `as_u64`, so a `Nat` payload suffices. -/
inductive Value where
  | null
  | bool (b : Bool)
  | num (n : Nat)
  | str (s : String)
  | arr (elems : List Value)
  | obj (fields : List (String × Value))

/-- `Value::as_object` / `as_object_mut`: the field list of an object. -/
def Value.asObject : Value → Option (List (String × Value))
  | .obj fields => some fields
  | _ => none

/-- `Value::as_array`: the element list of an array. -/
def Value.asArray : Value → Option (List Value)
  | .arr elems => some elems
  | _ => none

/-- `Value::as_str`: the payload of a string value. -/
def Value.asStr : Value → Option String
  | .str s => some s
  | _ => none

/-- `Map::get` (also `Map::remove` read off as a lookup): the value stored
under `key` in a JSON object's field list. -/
def objGet (fields : List (String × Value)) (key : String) : Option Value :=
  (fields.find? (fun p => p.1 = key)).map (fun p => p.2)

/-- `item.as_object_mut().and_then(|o| o.remove(key))` followed by the
`Some(Value::String(s))` match: the string stored under `key`, if any. -/
def Value.getStr (item : Value) (key : String) : Option String :=
  (item.asObject.bind (fun o => objGet o key)).bind Value.asStr

/-- Modelled from the spec: `err.rs` is not in src/.  `client.rs` matches a
`SensuError` exhaustively against `SensuError::NotFound` and
`SensuError::Message(s)`, and the spec's taxonomy distinguishes NotFound
(definitive absence) from transport/parse failures carried as messages. -/
inductive SensuError where
  | NotFound
  | Message (s : String)
deriving DecidableEq, Repr

/-- Modelled from the spec: `resource.rs` is not in src/.  "Monitoring
Resource: tagged union \x7bClient(name), Subscription(name)\x7d". -/
inductive SensuResource where
  | Client (name : String)
  | Subscription (name : String)
deriving DecidableEq, Repr

/-- Modelled from the spec: the `Borrow<String>` impl used by
`validate_subscriptions` exposes the textual identifier of a resource. -/
def SensuResource.name : SensuResource → String
  | .Client n => n
  | .Subscription n => n

/-- Modelled from the spec: `resources.rs` is not in src/.  "Resource
Selector: user input, tagged \x7bNode(ids), Subscription(names),
Client(names)\x7d". -/
inductive ShushResourceType where
  | Node
  | Sub
  | Client
deriving DecidableEq, Repr

/-- Modelled from the spec: the selector pairs a tag with the identifier
list, as consumed by `map_to_sensu_resources`. -/
structure ShushResources where
  res_type : ShushResourceType
  resources : List String

/-- Modelled from the spec: `expire.rs` is not in src/.  The expiration spec
is opaque to the dispatch logic; only its presence in payloads matters. -/
abbrev Expire := String

/-- Modelled from the spec: `endpoint.rs` is not in src/.  The endpoints
named by `client.rs` and listed in spec section 6. -/
inductive SensuEndpoint where
  | Clients
  | Client (name : String)
  | Results
  | Silenced
  | Clear
deriving DecidableEq, Repr

/-- Modelled from the spec: `payload.rs` is not in src/.  "POST silence, body
\x7bresource?, check?, expire\x7d"; optional fields absent from the logical
payload are omitted. -/
structure SensuPayload where
  res : Option String
  chk : Option String
  expire : Option Expire
deriving DecidableEq, Repr

/-- One dispatched gateway request: the endpoint it targets and its payload. -/
structure Dispatch where
  endpoint : SensuEndpoint
  payload : SensuPayload
deriving DecidableEq, Repr

/-- The transport-level outcome of one HTTP exchange, as observed by the
future chain in `SensuClient::request`: the connection itself may fail, or a
response arrives with a status code and a body read that may itself fail. -/
inductive HttpOutcome where
  | connectError (msg : String)
  | response (status : Nat) (bodyRead : Except String String)

/-- The response-processing chain of `SensuClient::request`
(`client.rs:77-107`): a transport failure becomes a message error; a 404
status becomes the distinguished NotFound error before the body is read; an
empty body yields `Ok(None)`; a non-empty body is JSON-parsed, success giving
`Ok(Some(v))` and failure an error.  `parse` stands for
`serde_json::from_slice`. -/
def processResponse (parse : String → Option Value) :
    HttpOutcome → Except SensuError (Option Value)
  | .connectError msg => .error (.Message msg)
  | .response status bodyRead =>
    if status = 404 then
      .error SensuError.NotFound
    else
      match bodyRead with
      | .error msg => .error (.Message msg)
      | .ok body =>
        if body.length < 1 then
          .ok none
        else
          match parse body with
          | some v => .ok (some v)
          | none => .error (.Message "parse error")

/-- `SensuClient::validate_client` (`client.rs:192-199`) as a function of the
response to its single `GET Client(name)` request: false exactly on the
`Err(SensuError::NotFound)` arm, true otherwise. -/
def validate_client (resp : Except SensuError (Option Value)) : Bool :=
  match resp with
  | .error .NotFound => false
  | _ => true

/-- The subscription set of `validate_subscriptions` (`client.rs:220-235`):
from each client object take its `subscriptions` array's string elements and
flatten.  Membership in this list models membership in the `HashSet`. -/
def collectSubs (vec : List Value) : List String :=
  (vec.filterMap (fun obj =>
    ((obj.asObject.bind (fun o => objGet o "subscriptions")).bind
        Value.asArray).map
      (fun arr => arr.filterMap Value.asStr))).flatten

/-- `SensuClient::validate_subscriptions` (`client.rs:201-253`) as a function
of the response to its `GET Clients` request: any error returns the
candidates unmodified; a response that is not a JSON array likewise; an array
response builds the live subscription set and filters the candidates by
membership of their borrowed name. -/
def validate_subscriptions (resp : Except SensuError (Option Value))
    (subscriptions : List SensuResource) : List SensuResource :=
  match resp with
  | .error .NotFound => subscriptions
  | .error (.Message _) => subscriptions
  | .ok r =>
    match r with
    | some (Value.arr vec) =>
      subscriptions.filter (fun sub => (collectSubs vec).contains sub.name)
    | _ => subscriptions

/-- The check-name set of `validate_checks` (`client.rs:274-286`): from each
result object take `check.name` when it is a string. -/
def collectChecks (vec : List Value) : List String :=
  vec.filterMap (fun obj =>
    ((obj.asObject.bind (fun o => objGet o "check")).bind
        (fun c => c.asObject.bind (fun co => objGet co "name"))).bind
      Value.asStr)

/-- `SensuClient::validate_checks` (`client.rs:255-301`) as a function of the
response to its `GET Results` request: any error returns the candidates
unmodified; a response that is not a JSON array likewise; an array response
builds the live check-name set and filters the candidates by membership. -/
def validate_checks (resp : Except SensuError (Option Value))
    (checks : List String) : List String :=
  match resp with
  | .error .NotFound => checks
  | .error (.Message _) => checks
  | .ok r =>
    match r with
    | some (Value.arr vec) =>
      checks.filter (fun chk => (collectChecks vec).contains chk)
    | _ => checks

/-- `HashMap::insert` on an insertion-ordered association list with unique
keys: an existing binding for the key is replaced in place, a fresh key is
appended. -/
def insertAssoc (m : List (String × String)) (k v : String) :
    List (String × String) :=
  match m with
  | [] => [(k, v)]
  | (k2, v2) :: rest =>
    if k2 = k then (k, v) :: rest else (k2, v2) :: insertAssoc rest k v

/-- `HashMap::remove`: look up `k`; on a hit return the stored value and the
map without that binding, otherwise `none`. -/
def removeAssoc (k : String) (m : List (String × String)) :
    Option (String × List (String × String)) :=
  match m with
  | [] => none
  | (k2, v) :: rest =>
    if k2 = k then some (v, rest)
    else
      match removeAssoc k rest with
      | some (v2, rest2) => some (v2, (k2, v) :: rest2)
      | none => none

/-- `SensuClient::get_node_to_client_map` (`client.rs:110-139`) as a function
of the response to its `GET Clients` request: a request error propagates as a
hard error; otherwise, when the response is a JSON array, each entry
contributes its `instance_id` and `name` strings to the map, entries missing
either being skipped; a non-array (or absent) response yields the empty
map. -/
def get_node_to_client_map (resp : Except SensuError (Option Value)) :
    Except SensuError (List (String × String)) :=
  match resp with
  | .error e => .error e
  | .ok clients =>
    .ok
      (match clients with
      | some (Value.arr v) =>
        v.foldl
          (fun m item =>
            match item.getStr "instance_id", item.getStr "name" with
            | some i, some c => insertAssoc m i c
            | _, _ => m)
          []
      | _ => [])

/-- The operator-visible diagnostics the resolver prints; the node path
prints a "not yet registered" warning for each unmapped instance id. -/
inductive LogEvent where
  | warnNotRegistered (id : String)
deriving DecidableEq, Repr

/-- The `ShushResourceType::Node` arm of `map_to_sensu_resources`
(`client.rs:148-170`): walk the input ids in order, removing each one's
binding from the node-to-client map; a hit is kept as `Client(name)` exactly
when `validate_client` passes, a miss prints a warning and is dropped.  `vc`
gives the result of `validate_client` on each looked-up client name.
Returns the kept resources, the residual map, and the warnings printed. -/
def nodeResolve (vc : String → Bool) :
    List String → List (String × String) →
      List SensuResource × List (String × String) × List LogEvent
  | [], m => ([], m, [])
  | id :: rest, m =>
    match removeAssoc id m with
    | some (val, m2) =>
      let (out, m3, ws) := nodeResolve vc rest m2
      (if vc val then SensuResource.Client val :: out else out, m3, ws)
    | none =>
      let (out, m2, ws) := nodeResolve vc rest m
      (out, m2, LogEvent.warnNotRegistered id :: ws)

/-- The responses the environment returns to each request site of one
resolution/dispatch pass.  `mapResp` answers the `GET Clients` issued by
`get_node_to_client_map`; `clientResp` answers each `GET Client(name)` issued
by `validate_client`; `subsResp` answers the separate `GET Clients` issued by
`validate_subscriptions`; `resultsResp` answers the `GET Results` issued by
`validate_checks`. -/
structure Env where
  mapResp : Except SensuError (Option Value)
  clientResp : String → Except SensuError (Option Value)
  subsResp : Except SensuError (Option Value)
  resultsResp : Except SensuError (Option Value)

/-- `SensuClient::map_to_sensu_resources` (`client.rs:141-190`): always build
the node-to-client map first, propagating its failure as a hard error; then
branch on the selector tag — Node ids go through the destructive lookup plus
client validation, Subscription names are wrapped and batch-filtered by
`validate_subscriptions`, Client names are kept exactly when
`validate_client` passes.  Returns the resources together with the warnings
printed. -/
def map_to_sensu_resources (env : Env) (res : ShushResources) :
    Except SensuError (List SensuResource × List LogEvent) :=
  match get_node_to_client_map env.mapResp with
  | .error e => .error e
  | .ok m =>
    match res.res_type with
    | .Node =>
      let (out, _, ws) :=
        nodeResolve (fun n => validate_client (env.clientResp n))
          res.resources m
      .ok (out, ws)
    | .Sub =>
      .ok
        (validate_subscriptions env.subsResp
          (res.resources.map SensuResource.Subscription), [])
    | .Client =>
      .ok
        (res.resources.filterMap
          (fun c =>
            if validate_client (env.clientResp c) then
              some (SensuResource.Client c)
            else none), [])

/-- Modelled from the spec: the `Display` impl of `resource.rs` renders the
"textual identifier used as a request parameter"; the dispatch logic treats
it as an opaque stringification of the resource. -/
def SensuResource.display : SensuResource → String
  | .Client n => n
  | .Subscription n => n

/-- `opts.rs`: options of the silence subcommand. -/
structure SilenceOpts where
  resources : Option ShushResources
  checks : Option (List String)
  expire : Expire

/-- `opts.rs`: options of the clear subcommand. -/
structure ClearOpts where
  resources : Option ShushResources
  checks : Option (List String)

/-- How one executor run ends: the function returns `Ok(())`, the process is
terminated via `process::exit(code)`, or the function returns a hard error
(from the `?` on resource resolution). -/
inductive ExecOutcome where
  | ok
  | exited (code : Nat)
  | hardError (e : SensuError)
deriving DecidableEq, Repr

/-- The serial fail-hard dispatch loop shared by silence and clear
(`client.rs:316-372`, `393-443`): issue the planned requests strictly in
order; the first gateway failure prints the error and terminates the process
with exit code 1, the failing request having already been issued.  `post`
gives the gateway's answer to each dispatched request.  Returns the requests
actually issued and whether the loop exited the process. -/
def dispatchAll (post : Dispatch → Except SensuError (Option Value)) :
    List Dispatch → List Dispatch × Option Nat
  | [] => ([], none)
  | d :: rest =>
    match post d with
    | .ok _ =>
      let (ds, ex) := dispatchAll post rest
      (d :: ds, ex)
    | .error _ => ([d], some 1)

/-- The cross-product request plan (`iproduct!(res, chk)`): one payload per
(resource, check) pair, resources outermost, checks innermost. -/
def crossPlan (ep : SensuEndpoint) (exp : Option Expire)
    (res chk : List String) : List Dispatch :=
  res.flatMap (fun r => chk.map (fun c => ⟨ep, ⟨some r, some c, exp⟩⟩))

/-- The resources-only request plan: one payload per resource with the check
field empty. -/
def resOnlyPlan (ep : SensuEndpoint) (exp : Option Expire)
    (res : List String) : List Dispatch :=
  res.map (fun r => ⟨ep, ⟨some r, none, exp⟩⟩)

/-- The checks-only request plan: one payload per check with the resource
field empty. -/
def chkOnlyPlan (ep : SensuEndpoint) (exp : Option Expire)
    (chk : List String) : List Dispatch :=
  chk.map (fun c => ⟨ep, ⟨none, some c, exp⟩⟩)

/-- The `(resources?, checks?)` branch shared by silence and clear
(`client.rs:315-377`, `392-448`): both present gives the cross product, one
side present gives the corresponding partial plan, neither present prints
the usage error and terminates the process with exit code 1.  On a plan the
fail-hard dispatch loop runs; when it survives the function returns
`Ok(())`. -/
def runBatch (post : Dispatch → Except SensuError (Option Value))
    (ep : SensuEndpoint) (exp : Option Expire)
    (resources checks : Option (List String)) :
    List Dispatch × ExecOutcome :=
  match resources, checks with
  | some res, some chk =>
    let (ds, ex) := dispatchAll post (crossPlan ep exp res chk)
    (ds, match ex with | some c => .exited c | none => .ok)
  | some res, none =>
    let (ds, ex) := dispatchAll post (resOnlyPlan ep exp res)
    (ds, match ex with | some c => .exited c | none => .ok)
  | none, some chk =>
    let (ds, ex) := dispatchAll post (chkOnlyPlan ep exp chk)
    (ds, match ex with | some c => .exited c | none => .ok)
  | none, none => ([], .exited 1)

/-- `SensuClient::silence` (`client.rs:303-379`): resolve the selector when
given, its hard error propagating; pass the checks through `validate_checks`
when given; then run the branch-and-dispatch flow against the silenced
endpoint with the expiration attached to every payload.  Returns the POST
requests issued and how the run ends. -/
def silence (env : Env) (post : Dispatch → Except SensuError (Option Value))
    (s : SilenceOpts) : List Dispatch × ExecOutcome :=
  match
    (match s.resources with
    | some r =>
      match map_to_sensu_resources env r with
      | .error e => .error e
      | .ok (rs, _) => .ok (some (rs.map SensuResource.display))
    | none => .ok none : Except SensuError (Option (List String)))
  with
  | .error e => ([], .hardError e)
  | .ok resources =>
    let checks := s.checks.map (validate_checks env.resultsResp)
    runBatch post .Silenced (some s.expire) resources checks

/-- `SensuClient::clear` (`client.rs:381-450`): identical flow to `silence`
except that the supplied checks are used as given, with no validation, the
endpoint is the clear endpoint, and payloads carry no expiration. -/
def clear (env : Env) (post : Dispatch → Except SensuError (Option Value))
    (s : ClearOpts) : List Dispatch × ExecOutcome :=
  match
    (match s.resources with
    | some r =>
      match map_to_sensu_resources env r with
      | .error e => .error e
      | .ok (rs, _) => .ok (some (rs.map SensuResource.display))
    | none => .ok none : Except SensuError (Option (List String)))
  with
  | .error e => ([], .hardError e)
  | .ok resources =>
    runBatch post .Clear none resources s.checks

/-! ## Theorems -/

/-- C7: a 404 response yields the distinguished NotFound error, regardless of
its body; a transport failure yields a message error; a successful non-404
response with an empty body yields Ok(None); with a non-empty body, a
successful JSON parse yields Ok(Some(v)) and a parse failure yields a message
error. -/
theorem request_response_classification
    (parse : String → Option Value) (status : Nat)
    (bodyRead : Except String String) (msg body : String) (v : Value) :
    processResponse parse (.response 404 bodyRead) = .error .NotFound
    ∧ processResponse parse (.connectError msg) = .error (.Message msg)
    ∧ (status ≠ 404 →
        processResponse parse (.response status (.ok "")) = .ok none)
    ∧ (status ≠ 404 → 0 < body.length → parse body = some v →
        processResponse parse (.response status (.ok body)) = .ok (some v))
    ∧ (status ≠ 404 → 0 < body.length → parse body = none →
        processResponse parse (.response status (.ok body)) =
          .error (.Message "parse error")) := by
  refine ⟨by simp [processResponse], by simp [processResponse], ?_, ?_, ?_⟩
  · intro h
    simp [processResponse, h]
  · intro h hl hp
    have hl2 : ¬ body.length < 1 := by omega
    simp [processResponse, h, hl2, hp]
  · intro h hl hp
    have hl2 : ¬ body.length < 1 := by omega
    simp [processResponse, h, hl2, hp]

/-- Witness for C7 at concrete inputs: parse succeeds on the body "ok" and
fails on anything else. -/
theorem request_response_classification_witness :
    processResponse (fun s => if s = "ok" then some Value.null else none)
        (.response 404 (.ok "ok")) = .error .NotFound
    ∧ processResponse (fun s => if s = "ok" then some Value.null else none)
        (.connectError "down") = .error (.Message "down")
    ∧ processResponse (fun s => if s = "ok" then some Value.null else none)
        (.response 200 (.ok "")) = .ok none
    ∧ processResponse (fun s => if s = "ok" then some Value.null else none)
        (.response 200 (.ok "ok")) = .ok (some Value.null)
    ∧ processResponse (fun s => if s = "ok" then some Value.null else none)
        (.response 200 (.ok "xx")) = .error (.Message "parse error") := by
  obtain ⟨h1, h2, h3, h4, h5⟩ :=
    request_response_classification
      (fun s => if s = "ok" then some Value.null else none) 200 (.ok "ok")
      "down" "ok" Value.null
  obtain ⟨_, _, _, _, h5x⟩ :=
    request_response_classification
      (fun s => if s = "ok" then some Value.null else none) 200 (.ok "ok")
      "down" "xx" Value.null
  exact ⟨h1, h2, h3 (by decide), h4 (by decide) (by decide) (by simp),
    h5x (by decide) (by decide) (by simp)⟩

/-- C3: validate_client returns false exactly when the single-client request
ends in the definitive NotFound error; every other outcome — transport or
message error, or any success — yields true. -/
theorem validate_client_false_iff_notFound
    (resp : Except SensuError (Option Value)) :
    validate_client resp = false ↔ resp = .error SensuError.NotFound := by
  cases resp with
  | error e => cases e <;> simp [validate_client]
  | ok v => simp [validate_client]

/-- C2: when the live-state fetch does not produce a JSON array — it errored,
returned an empty body (Ok(None)), or returned a non-array value — both the
subscription validator and the check validator return their input list
unmodified. -/
theorem validators_identity_on_failed_fetch
    (resp : Except SensuError (Option Value))
    (subs : List SensuResource) (cks : List String)
    (h : ∀ vec, resp ≠ .ok (some (Value.arr vec))) :
    validate_subscriptions resp subs = subs
    ∧ validate_checks resp cks = cks := by
  cases resp with
  | error e => cases e <;> simp [validate_subscriptions, validate_checks]
  | ok r =>
    cases r with
    | none => simp [validate_subscriptions, validate_checks]
    | some v =>
      cases v with
      | arr vec => exact absurd rfl (h vec)
      | null => simp [validate_subscriptions, validate_checks]
      | bool b => simp [validate_subscriptions, validate_checks]
      | num n => simp [validate_subscriptions, validate_checks]
      | str s => simp [validate_subscriptions, validate_checks]
      | obj fields => simp [validate_subscriptions, validate_checks]

/-- Witness for C2: a transport-style failure leaves concrete candidate
lists untouched. -/
theorem validators_identity_on_failed_fetch_witness :
    validate_subscriptions (.error (.Message "down"))
        [SensuResource.Subscription "web"] = [SensuResource.Subscription "web"]
    ∧ validate_checks (.error (.Message "down")) ["disk", "disk"] =
        ["disk", "disk"] :=
  validators_identity_on_failed_fetch (.error (.Message "down"))
    [SensuResource.Subscription "web"] ["disk", "disk"]
    (fun vec h => by simp at h)

/-- C9: both validators always return a sublist of their input — every output
element occurs in the input, relative order is preserved, and duplicates are
preserved — and on a successful array fetch the output is exactly the input
filtered by membership of the candidate's name in the live set, so the live
set decides membership only. -/
theorem validators_filter_sublist
    (resp : Except SensuError (Option Value))
    (subs : List SensuResource) (cks : List String) (vec : List Value) :
    List.Sublist (validate_subscriptions resp subs) subs
    ∧ List.Sublist (validate_checks resp cks) cks
    ∧ validate_subscriptions (.ok (some (Value.arr vec))) subs =
        subs.filter (fun sub => (collectSubs vec).contains sub.name)
    ∧ validate_checks (.ok (some (Value.arr vec))) cks =
        cks.filter (fun chk => (collectChecks vec).contains chk) := by
  refine ⟨?_, ?_, rfl, rfl⟩
  · cases resp with
    | error e => cases e <;> exact List.Sublist.refl subs
    | ok r =>
      cases r with
      | none => exact List.Sublist.refl subs
      | some v =>
        cases v with
        | arr w => exact List.filter_sublist subs
        | null => exact List.Sublist.refl subs
        | bool b => exact List.Sublist.refl subs
        | num n => exact List.Sublist.refl subs
        | str s => exact List.Sublist.refl subs
        | obj fields => exact List.Sublist.refl subs
  · cases resp with
    | error e => cases e <;> exact List.Sublist.refl cks
    | ok r =>
      cases r with
      | none => exact List.Sublist.refl cks
      | some v =>
        cases v with
        | arr w => exact List.filter_sublist cks
        | null => exact List.Sublist.refl cks
        | bool b => exact List.Sublist.refl cks
        | num n => exact List.Sublist.refl cks
        | str s => exact List.Sublist.refl cks
        | obj fields => exact List.Sublist.refl cks

/-- A key absent from the association list cannot be removed. -/
theorem removeAssoc_eq_none_of_not_mem (k : String)
    (m : List (String × String)) (h : k ∉ m.map Prod.fst) :
    removeAssoc k m = none := by
  induction m with
  | nil => rfl
  | cons p rest ih =>
    obtain ⟨k2, v⟩ := p
    simp only [List.map_cons, List.mem_cons] at h
    push_neg at h
    obtain ⟨h1, h2⟩ := h
    rw [removeAssoc]
    rw [if_neg (fun hk => h1 hk.symm), ih h2]

/-- Removal only shrinks the key set of the map. -/
theorem keys_removeAssoc_subset (k : String) (m : List (String × String))
    (v : String) (m2 : List (String × String))
    (h : removeAssoc k m = some (v, m2)) :
    ∀ x, x ∈ m2.map Prod.fst → x ∈ m.map Prod.fst := by
  induction m generalizing v m2 with
  | nil => simp [removeAssoc] at h
  | cons p rest ih =>
    obtain ⟨k2, v2⟩ := p
    rw [removeAssoc] at h
    by_cases hk : k2 = k
    · rw [if_pos hk] at h
      obtain ⟨hv, hm⟩ := Prod.mk.injEq .. ▸ Option.some.injEq .. ▸ h
      intro x hx
      subst hm
      simp only [List.map_cons, List.mem_cons]
      exact Or.inr hx
    · rw [if_neg hk] at h
      cases hrec : removeAssoc k rest with
      | none => rw [hrec] at h; cases h
      | some p2 =>
        obtain ⟨v3, rest3⟩ := p2
        rw [hrec] at h
        obtain ⟨hv, hm⟩ := Prod.mk.injEq .. ▸ Option.some.injEq .. ▸ h
        subst hm
        intro x hx
        simp only [List.map_cons, List.mem_cons] at hx ⊢
        cases hx with
        | inl h1 => exact Or.inl h1
        | inr h2 => exact Or.inr (ih v3 rest3 hrec x h2)

/-- An input id that is not a key of the current map gets a warning. -/
theorem nodeResolve_warns_unmapped (vc : String → Bool) (ids : List String)
    (m : List (String × String)) (id : String) (hin : id ∈ ids)
    (hout : id ∉ m.map Prod.fst) :
    LogEvent.warnNotRegistered id ∈ (nodeResolve vc ids m).2.2 := by
  induction ids generalizing m with
  | nil => cases hin
  | cons id0 rest ih =>
    rw [nodeResolve]
    cases hrem : removeAssoc id0 m with
    | some p =>
      obtain ⟨val, m2⟩ := p
      have hid : id ∈ rest := by
        cases List.mem_cons.mp hin with
        | inl h =>
          subst h
          rw [removeAssoc_eq_none_of_not_mem id m hout] at hrem
          cases hrem
        | inr h => exact h
      have hout2 : id ∉ m2.map Prod.fst := fun hx =>
        hout (keys_removeAssoc_subset id0 m val m2 hrem id hx)
      simpa using ih m2 hid hout2
    | none =>
      cases List.mem_cons.mp hin with
      | inl h =>
        subst h
        simp
      | inr h =>
        simpa using Or.inr (ih m h hout)

/-- Every resource the node path keeps passed client validation. -/
theorem nodeResolve_validated (vc : String → Bool) (ids : List String)
    (m : List (String × String)) (x : String)
    (hx : SensuResource.Client x ∈ (nodeResolve vc ids m).1) :
    vc x = true := by
  induction ids generalizing m with
  | nil => cases hx
  | cons id0 rest ih =>
    rw [nodeResolve] at hx
    cases hrem : removeAssoc id0 m with
    | some p =>
      obtain ⟨val, m2⟩ := p
      rw [hrem] at hx
      simp only at hx
      by_cases hv : vc val
      · rw [if_pos hv] at hx
        cases List.mem_cons.mp hx with
        | inl h => cases h; exact hv
        | inr h => exact ih m2 h
      · rw [if_neg hv] at hx
        exact ih m2 hx
    | none =>
      rw [hrem] at hx
      exact ih m hx

/-- Against an empty map the node path resolves nothing and warns on every
id, in order. -/
theorem nodeResolve_empty_map (vc : String → Bool) (ids : List String) :
    nodeResolve vc ids [] =
      ([], [], ids.map LogEvent.warnNotRegistered) := by
  induction ids with
  | nil => rfl
  | cons id0 rest ih => simp [nodeResolve, removeAssoc, ih]

/-- C6: for a Node selector whose preliminary map fetch succeeded, resolution
never returns an error (it returns exactly the node-path output and
warnings); an input id absent from the node-to-client map is dropped with a
"not yet registered" warning; every kept resource passed client-existence
validation; and with no registered clients at all, every id is dropped with
one warning each and the result is empty. -/
theorem node_unmapped_dropped_without_error (env : Env)
    (r : ShushResources) (m0 : List (String × String))
    (vc : String → Bool) (ids : List String)
    (m : List (String × String)) (id x : String) :
    (r.res_type = .Node → get_node_to_client_map env.mapResp = .ok m0 →
      map_to_sensu_resources env r =
        .ok ((nodeResolve (fun n => validate_client (env.clientResp n))
                r.resources m0).1,
             (nodeResolve (fun n => validate_client (env.clientResp n))
                r.resources m0).2.2))
    ∧ (id ∈ ids → id ∉ m.map Prod.fst →
        LogEvent.warnNotRegistered id ∈ (nodeResolve vc ids m).2.2)
    ∧ (SensuResource.Client x ∈ (nodeResolve vc ids m).1 → vc x = true)
    ∧ nodeResolve vc ids [] = ([], [], ids.map LogEvent.warnNotRegistered) := by
  refine ⟨?_, ?_, ?_, nodeResolve_empty_map vc ids⟩
  · intro ht hm
    obtain ⟨rt, rs⟩ := r
    simp only at ht
    subst ht
    rw [map_to_sensu_resources, hm]
  · intro hin hout
    exact nodeResolve_warns_unmapped vc ids m id hin hout
  · intro hx
    exact nodeResolve_validated vc ids m x hx

/-- Witness for C6: with one registered client for instance "i-1" and a
validator that accepts everything, the selector Node(["i-1", "i-2"]) keeps
Client("web1") and warns exactly once, on "i-2". -/
theorem node_unmapped_dropped_without_error_witness :
    map_to_sensu_resources
        ⟨.ok (some (Value.arr
            [Value.obj [("instance_id", Value.str "i-1"),
                        ("name", Value.str "web1")]])),
          fun _ => .ok none, .ok none, .ok none⟩
        ⟨.Node, ["i-1", "i-2"]⟩ =
      .ok ([SensuResource.Client "web1"],
           [LogEvent.warnNotRegistered "i-2"])
    ∧ LogEvent.warnNotRegistered "i-2" ∈
        (nodeResolve (fun _ => true) ["i-1", "i-2"] [("i-1", "web1")]).2.2
    ∧ nodeResolve (fun _ => true) ["i-2"] [] =
        ([], [], [LogEvent.warnNotRegistered "i-2"]) := by
  obtain ⟨h1, h2, h3, h4⟩ :=
    node_unmapped_dropped_without_error
      ⟨.ok (some (Value.arr
          [Value.obj [("instance_id", Value.str "i-1"),
                      ("name", Value.str "web1")]])),
        fun _ => .ok none, .ok none, .ok none⟩
      ⟨.Node, ["i-1", "i-2"]⟩ [("i-1", "web1")] (fun _ => true)
      ["i-1", "i-2"] [("i-1", "web1")] "i-2" "web1"
  refine ⟨?_, h2 (by simp) (by simp), ?_⟩
  · have := h1 rfl (by rfl)
    rw [this]
    rfl
  · obtain ⟨_, _, _, h4x⟩ :=
      node_unmapped_dropped_without_error
        ⟨.ok none, fun _ => .ok none, .ok none, .ok none⟩
        ⟨.Node, []⟩ [] (fun _ => true) ["i-2"] [] "i-2" "w"
    exact h4x

/-- C1 counterexample: resolution of a Subscription selector CAN fail with a
hard error.  `map_to_sensu_resources` builds the node-to-client map before
branching on the selector tag, and that preliminary `GET Clients` propagates
its failure through the `?` operator even though the selector is a
Subscription; here the map fetch fails with a transport error and the whole
resolution returns that error instead of the candidate list. -/
theorem sub_resolution_can_fail_hard :
    map_to_sensu_resources
        ⟨.error (.Message "connection refused"), fun _ => .ok none,
          .ok none, .ok none⟩
        ⟨.Sub, ["web"]⟩ =
      .error (.Message "connection refused") := rfl

/-- C1 amended: once the preliminary node-to-client map fetch succeeds,
resolution of a Subscription selector wraps each input name as a Subscription
resource and filters the batch through subscription validation only; when the
validation's own live-state fetch fails the original candidates are returned
unmodified, and no hard error arises from the branch.  The only hard-error
path is the preliminary map fetch, whose failure propagates verbatim. -/
theorem sub_resolution_filters_only (env : Env) (r : ShushResources)
    (m0 : List (String × String)) (e : SensuError)
    (ht : r.res_type = .Sub) :
    (get_node_to_client_map env.mapResp = .ok m0 →
      map_to_sensu_resources env r =
        .ok (validate_subscriptions env.subsResp
              (r.resources.map SensuResource.Subscription), []))
    ∧ (get_node_to_client_map env.mapResp = .ok m0 → env.subsResp = .error e →
        map_to_sensu_resources env r =
          .ok (r.resources.map SensuResource.Subscription, []))
    ∧ (env.mapResp = .error e → map_to_sensu_resources env r = .error e) := by
  obtain ⟨rt, rs⟩ := r
  simp only at ht
  subst ht
  refine ⟨?_, ?_, ?_⟩
  · intro hm
    rw [map_to_sensu_resources, hm]
  · intro hm hs
    rw [map_to_sensu_resources, hm]
    simp only
    rw [hs]
    cases e <;> rfl
  · intro hm
    simp [map_to_sensu_resources, get_node_to_client_map, hm]

/-- Witness for C1 amended: with a succeeding map fetch and a failing
validation fetch, the Subscription selector resolves to its wrapped
candidates unchanged; with a failing map fetch the error propagates. -/
theorem sub_resolution_filters_only_witness :
    map_to_sensu_resources
        ⟨.ok none, fun _ => .ok none, .error (.Message "down"), .ok none⟩
        ⟨.Sub, ["web", "db"]⟩ =
      .ok ([SensuResource.Subscription "web", SensuResource.Subscription "db"],
           [])
    ∧ map_to_sensu_resources
        ⟨.error .NotFound, fun _ => .ok none, .ok none, .ok none⟩
        ⟨.Sub, ["web"]⟩ =
      .error .NotFound := by
  obtain ⟨h1, h2, h3⟩ :=
    sub_resolution_filters_only
      ⟨.ok none, fun _ => .ok none, .error (.Message "down"), .ok none⟩
      ⟨.Sub, ["web", "db"]⟩ [] (.Message "down") rfl
  obtain ⟨g1, g2, g3⟩ :=
    sub_resolution_filters_only
      ⟨.error .NotFound, fun _ => .ok none, .ok none, .ok none⟩
      ⟨.Sub, ["web"]⟩ [] .NotFound rfl
  exact ⟨h2 rfl rfl, g3 rfl⟩

/-- When every gateway dispatch succeeds, the fail-hard loop issues the whole
plan in order and never exits the process. -/
theorem dispatchAll_all_ok (post : Dispatch → Except SensuError (Option Value))
    (plan : List Dispatch) (h : ∀ d, ∃ v, post d = .ok v) :
    dispatchAll post plan = (plan, none) := by
  induction plan with
  | nil => rfl
  | cons d rest ih =>
    obtain ⟨v, hv⟩ := h d
    rw [dispatchAll, hv, ih]

/-- The cross-product plan has exactly one element per (resource, check)
pair. -/
theorem crossPlan_length (ep : SensuEndpoint) (exp : Option Expire)
    (res chk : List String) :
    (crossPlan ep exp res chk).length = res.length * chk.length := by
  induction res with
  | nil => simp [crossPlan]
  | cons r rest ih =>
    simp only [crossPlan, List.flatMap_cons, List.length_append,
      List.length_map, List.length_cons] at ih ⊢
    rw [ih, Nat.succ_mul, Nat.add_comm]

/-- With an all-accepting gateway, each populated branch of the executor flow
dispatches exactly its plan and returns success. -/
theorem runBatch_all_ok (post : Dispatch → Except SensuError (Option Value))
    (ep : SensuEndpoint) (exp : Option Expire) (res chk : List String)
    (h : ∀ d, ∃ v, post d = .ok v) :
    runBatch post ep exp (some res) (some chk) =
      (crossPlan ep exp res chk, .ok)
    ∧ runBatch post ep exp (some res) none = (resOnlyPlan ep exp res, .ok)
    ∧ runBatch post ep exp none (some chk) = (chkOnlyPlan ep exp chk, .ok) := by
  have hd : ∀ plan, dispatchAll post plan = (plan, none) :=
    fun plan => dispatchAll_all_ok post plan h
  refine ⟨?_, ?_, ?_⟩ <;> simp only [runBatch, hd]

/-- C4: with both lists present and every gateway dispatch succeeding, the
silence executor issues exactly one request per (resolved resource, validated
check) pair, in cross-product order, and the clear executor one request per
(resolved resource, supplied check) pair; the dispatched count is exactly
the product of the list lengths and both runs return success. -/
theorem cross_product_dispatch (env : Env)
    (post : Dispatch → Except SensuError (Option Value))
    (s : SilenceOpts) (c : ClearOpts) (r r2 : ShushResources)
    (rs rs2 : List SensuResource) (ws ws2 : List LogEvent)
    (cks cks2 : List String)
    (hpost : ∀ d, ∃ v, post d = .ok v) :
    (s.resources = some r → map_to_sensu_resources env r = .ok (rs, ws) →
      s.checks = some cks →
      silence env post s =
        (crossPlan .Silenced (some s.expire) (rs.map SensuResource.display)
          (validate_checks env.resultsResp cks), .ok)
      ∧ (silence env post s).1.length =
          rs.length * (validate_checks env.resultsResp cks).length)
    ∧ (c.resources = some r2 → map_to_sensu_resources env r2 = .ok (rs2, ws2) →
        c.checks = some cks2 →
        clear env post c =
          (crossPlan .Clear none (rs2.map SensuResource.display) cks2, .ok)
        ∧ (clear env post c).1.length = rs2.length * cks2.length) := by
  constructor
  · intro hres hm hchk
    obtain ⟨sres, schk, sexp⟩ := s
    simp only at hres hchk
    subst hres
    subst hchk
    have heq : silence env post ⟨some r, some cks, sexp⟩ =
        (crossPlan .Silenced (some sexp) (rs.map SensuResource.display)
          (validate_checks env.resultsResp cks), .ok) := by
      simp only [silence, hm, Option.map_some']
      exact (runBatch_all_ok post .Silenced (some sexp)
        (rs.map SensuResource.display)
        (validate_checks env.resultsResp cks) hpost).1
    refine ⟨heq, ?_⟩
    rw [heq]
    simp only [crossPlan_length, List.length_map]
  · intro hres hm hchk
    obtain ⟨cres, cchk⟩ := c
    simp only at hres hchk
    subst hres
    subst hchk
    have heq : clear env post ⟨some r2, some cks2⟩ =
        (crossPlan .Clear none (rs2.map SensuResource.display) cks2, .ok) := by
      simp only [clear, hm]
      exact (runBatch_all_ok post .Clear none
        (rs2.map SensuResource.display) cks2 hpost).1
    refine ⟨heq, ?_⟩
    rw [heq]
    simp only [crossPlan_length, List.length_map]

/-- Witness for C4: two resolved clients crossed with two validated checks
dispatch exactly four silence requests, in row-major order. -/
theorem cross_product_dispatch_witness :
    silence
        ⟨.ok (some (Value.arr
            [Value.obj [("instance_id", Value.str "i-1"),
                        ("name", Value.str "a")],
             Value.obj [("instance_id", Value.str "i-2"),
                        ("name", Value.str "b")]])),
          fun _ => .ok none, .ok none, .error (.Message "down")⟩
        (fun _ => .ok none)
        ⟨some ⟨.Node, ["i-1", "i-2"]⟩, some ["c1", "c2"], "600"⟩ =
      ([⟨.Silenced, ⟨some "a", some "c1", some "600"⟩⟩,
        ⟨.Silenced, ⟨some "a", some "c2", some "600"⟩⟩,
        ⟨.Silenced, ⟨some "b", some "c1", some "600"⟩⟩,
        ⟨.Silenced, ⟨some "b", some "c2", some "600"⟩⟩], .ok)
    ∧ (silence
        ⟨.ok (some (Value.arr
            [Value.obj [("instance_id", Value.str "i-1"),
                        ("name", Value.str "a")],
             Value.obj [("instance_id", Value.str "i-2"),
                        ("name", Value.str "b")]])),
          fun _ => .ok none, .ok none, .error (.Message "down")⟩
        (fun _ => .ok none)
        ⟨some ⟨.Node, ["i-1", "i-2"]⟩, some ["c1", "c2"], "600"⟩).1.length =
      2 * 2 := by
  obtain ⟨hs, _⟩ :=
    cross_product_dispatch
      ⟨.ok (some (Value.arr
          [Value.obj [("instance_id", Value.str "i-1"),
                      ("name", Value.str "a")],
           Value.obj [("instance_id", Value.str "i-2"),
                      ("name", Value.str "b")]])),
        fun _ => .ok none, .ok none, .error (.Message "down")⟩
      (fun _ => .ok none)
      ⟨some ⟨.Node, ["i-1", "i-2"]⟩, some ["c1", "c2"], "600"⟩
      ⟨none, none⟩ ⟨.Node, ["i-1", "i-2"]⟩ ⟨.Node, []⟩
      [SensuResource.Client "a", SensuResource.Client "b"] [] [] []
      ["c1", "c2"] [] (fun _ => ⟨none, rfl⟩)
  obtain ⟨h1, h2⟩ := hs rfl (by rfl) rfl
  exact ⟨h1, by rw [h2]; rfl⟩

/-- C5: with neither a resource selector nor a check list supplied, silence
and clear issue no gateway request at all and terminate the process with
exit code 1. -/
theorem no_targets_exits_nonzero (env : Env)
    (post : Dispatch → Except SensuError (Option Value)) (e : Expire) :
    silence env post ⟨none, none, e⟩ = ([], .exited 1)
    ∧ clear env post ⟨none, none⟩ = ([], .exited 1) :=
  ⟨rfl, rfl⟩

/-- C8: with no resource selector and every dispatch succeeding, silence
dispatches one request per element of the VALIDATED check list — the
supplied checks pass through `validate_checks` first — while clear
dispatches one request per supplied check exactly as given, with no
validation applied. -/
theorem silence_validates_checks_clear_does_not (env : Env)
    (post : Dispatch → Except SensuError (Option Value))
    (cks : List String) (e : Expire)
    (hpost : ∀ d, ∃ v, post d = .ok v) :
    silence env post ⟨none, some cks, e⟩ =
      (chkOnlyPlan .Silenced (some e) (validate_checks env.resultsResp cks),
       .ok)
    ∧ clear env post ⟨none, some cks⟩ =
      (chkOnlyPlan .Clear none cks, .ok) := by
  constructor
  · simp only [silence, Option.map_some']
    exact (runBatch_all_ok post .Silenced (some e) []
      (validate_checks env.resultsResp cks) hpost).2.2
  · simp only [clear]
    exact (runBatch_all_ok post .Clear none [] cks hpost).2.2

/-- Witness for C8: the live check-result list is empty, so validation
filters the supplied check away — silence dispatches nothing while clear
dispatches the check as given. -/
theorem silence_validates_checks_clear_does_not_witness :
    silence
        ⟨.ok none, fun _ => .ok none, .ok none, .ok (some (Value.arr []))⟩
        (fun _ => .ok none) ⟨none, some ["disk"], "600"⟩ =
      ([], .ok)
    ∧ clear
        ⟨.ok none, fun _ => .ok none, .ok none, .ok (some (Value.arr []))⟩
        (fun _ => .ok none) ⟨none, some ["disk"]⟩ =
      ([⟨.Clear, ⟨none, some "disk", none⟩⟩], .ok) :=
  silence_validates_checks_clear_does_not
    ⟨.ok none, fun _ => .ok none, .ok none, .ok (some (Value.arr []))⟩
    (fun _ => .ok none) ["disk"] "600" (fun _ => ⟨none, rfl⟩)

/-- C10: when a selector was supplied but resolution left no resource, or
(for silence) checks were supplied but validation filtered them all away,
the executors dispatch zero requests and return success — the no-targets
usage error fires only when neither option was supplied at all. -/
theorem empty_after_filtering_succeeds (env : Env)
    (post : Dispatch → Except SensuError (Option Value))
    (s : SilenceOpts) (c : ClearOpts) (r r2 : ShushResources)
    (ws ws2 : List LogEvent) (cks : List String) :
    (s.resources = some r → map_to_sensu_resources env r = .ok ([], ws) →
      silence env post s = ([], .ok))
    ∧ (s.resources = none → s.checks = some cks →
        validate_checks env.resultsResp cks = [] →
        silence env post s = ([], .ok))
    ∧ (c.resources = some r2 → map_to_sensu_resources env r2 = .ok ([], ws2) →
        clear env post c = ([], .ok)) := by
  refine ⟨?_, ?_, ?_⟩
  · intro hres hm
    obtain ⟨sres, schk, sexp⟩ := s
    simp only at hres
    subst hres
    cases schk with
    | none => simp only [silence, hm, List.map_nil, Option.map_none']; rfl
    | some cs => simp only [silence, hm, List.map_nil, Option.map_some']; rfl
  · intro hres hchk hv
    obtain ⟨sres, schk, sexp⟩ := s
    simp only at hres hchk
    subst hres
    subst hchk
    simp only [silence, Option.map_some', hv]
    rfl
  · intro hres hm
    obtain ⟨cres, cchk⟩ := c
    simp only at hres
    subst hres
    cases cchk with
    | none => simp only [clear, hm, List.map_nil]; rfl
    | some cs => simp only [clear, hm, List.map_nil]; rfl

/-- Witness for C10: an empty live client list resolves a Client selector to
nothing and an empty result list validates every check away; both executors
finish successfully with zero dispatches. -/
theorem empty_after_filtering_succeeds_witness :
    silence
        ⟨.ok (some (Value.arr [])), fun _ => .error .NotFound, .ok none,
          .ok (some (Value.arr []))⟩
        (fun _ => .error (.Message "down"))
        ⟨some ⟨.Client, ["ghost"]⟩, none, "600"⟩ = ([], .ok)
    ∧ silence
        ⟨.ok (some (Value.arr [])), fun _ => .error .NotFound, .ok none,
          .ok (some (Value.arr []))⟩
        (fun _ => .error (.Message "down"))
        ⟨none, some ["disk"], "600"⟩ = ([], .ok)
    ∧ clear
        ⟨.ok (some (Value.arr [])), fun _ => .error .NotFound, .ok none,
          .ok (some (Value.arr []))⟩
        (fun _ => .error (.Message "down"))
        ⟨some ⟨.Client, ["ghost"]⟩, none⟩ = ([], .ok) := by
  obtain ⟨h1, h2, h3⟩ :=
    empty_after_filtering_succeeds
      ⟨.ok (some (Value.arr [])), fun _ => .error .NotFound, .ok none,
        .ok (some (Value.arr []))⟩
      (fun _ => .error (.Message "down"))
      ⟨some ⟨.Client, ["ghost"]⟩, none, "600"⟩
      ⟨some ⟨.Client, ["ghost"]⟩, none⟩
      ⟨.Client, ["ghost"]⟩ ⟨.Client, ["ghost"]⟩ [] [] ["disk"]
  obtain ⟨_, g2, _⟩ :=
    empty_after_filtering_succeeds
      ⟨.ok (some (Value.arr [])), fun _ => .error .NotFound, .ok none,
        .ok (some (Value.arr []))⟩
      (fun _ => .error (.Message "down"))
      ⟨none, some ["disk"], "600"⟩ ⟨none, none⟩
      ⟨.Client, ["ghost"]⟩ ⟨.Client, ["ghost"]⟩ [] [] ["disk"]
  exact ⟨h1 rfl (by rfl), g2 rfl rfl (by rfl), h3 rfl (by rfl)⟩

end Shush
